import Mathlib

/-!
Shallow embedding of `src/udp_comm.py` (class `WifiComm`).

Python semantics modelled here:
* `struct.pack(fmt, v)` for one format character is `packOne`: `none` models a
  raised `struct.error` (value out of range for the declared width),
  `some bytes` the packed little-endian bytes (each byte a `Nat < 256`).
* `struct.unpack(fmt * len(raw), raw)` is `unpackData`: it succeeds exactly
  when `calcsize(fmt * len(raw)) = len(raw)`, i.e. `fmtSize fmt * len raw = len raw`.
* `print("WARNING: ...")` calls are modelled as appending a `Warn` value to a
  warning log (a field of the state, or a component of the returned value).
* The object state of a `WifiComm` instance is `ChanState`; each method is a
  function on it.  `t1_receive` is only ever inspected through
  `isinstance(self.t1_receive, list)`, so it is embedded as the boolean field
  `t1_receive_is_list`; the number of receive / cyclic-send threads that have
  been `.start()`ed is tracked in `activeReceiveLoops` / `activeSendLoops`.
* A loop iteration of `__receive_thread` is `stepReceive`, driven by an
  `REvent` (the outcome of `recvfrom`: a `socket.error` with its message, or a
  datagram).  A run of the loop is `runReceiveLoop`, whose oracle list gives,
  per iteration, the value of `t1_stop` observed at the `while` test and the
  transport outcome; it returns the final state and the number of iterations
  executed.  `__send_cyclic_thread` is analogously `runSendCyclic`.
-/

namespace UdpComm

/-- A `struct` format character, as accepted by `__pack_tx_data` /
`self.format_string`.  `B` = unsigned 8-bit (the default set in `__init__`),
`b` = signed 8-bit, `H` = unsigned 16-bit. -/
inductive Fmt where
  | B
  | b
  | H
deriving DecidableEq, Repr

/-- `struct.calcsize` of one format character. -/
def fmtSize : Fmt → Nat
  | .B => 1
  | .b => 1
  | .H => 2

/-- `struct.pack(fmt, v)` for a single value: `none` models the raised
`struct.error` when `v` is out of range for the declared width, otherwise the
packed bytes (native little-endian for `H`). -/
def packOne : Fmt → Int → Option (List Nat)
  | .B, v => if 0 ≤ v ∧ v ≤ 255 then some [v.toNat] else none
  | .b, v => if -128 ≤ v ∧ v ≤ 127 then some [(v % 256).toNat] else none
  | .H, v => if 0 ≤ v ∧ v ≤ 65535 then some [v.toNat % 256, v.toNat / 256] else none

/-- Decoding of consecutive 16-bit little-endian values. -/
def unpackH : List Nat → List Int
  | lo :: hi :: rest => Int.ofNat (lo + 256 * hi) :: unpackH rest
  | _ => []

/-- The values produced by `struct.unpack` once the size check passed. -/
def unpackVals : Fmt → List Nat → List Int
  | .B, raw => raw.map Int.ofNat
  | .b, raw => raw.map (fun x => if x < 128 then Int.ofNat x else Int.ofNat x - 256)
  | .H, raw => unpackH raw

/-- `struct.unpack(self.format_string * len(raw_data), raw_data)` as used in
`__receive_thread`: it raises `struct.error` (here `none`) exactly when the
size of the repeated format string differs from `len(raw_data)`. -/
def unpackData (f : Fmt) (raw : List Nat) : Option (List Int) :=
  if fmtSize f * raw.length = raw.length then some (unpackVals f raw) else none

/-- One `print("WARNING: ...")` event of the class. -/
inductive Warn where
  /-- `__receive_thread`: a non-timeout `socket.error`, with its message. -/
  | recvSock (msg : String)
  /-- `__receive_thread`: `struct.error` from `struct.unpack`. -/
  | recvUnpack
  /-- `__pack_tx_data`: `struct.error` from `struct.pack` (value skipped). -/
  | packErr
  /-- `send_message`: `socket.error` from `sendto`. -/
  | sendSock
  /-- `send_message`: `message length is 0`. -/
  | sendEmpty
deriving DecidableEq, Repr

/-- `__pack_tx_data(send_data, send_data_format)`: iterates over `send_data`,
appending `struct.pack` of each element to the byte object; a `struct.error`
is caught, a warning printed, and the element skipped.  Returns the byte
object together with the warnings printed, in order. -/
def pack_tx_data (f : Fmt) : List Int → List Nat × List Warn
  | [] => ([], [])
  | v :: rest =>
    let r := pack_tx_data f rest
    match packOne f v with
    | some bs => (bs ++ r.1, r.2)
    | none => (r.1, Warn.packErr :: r.2)

/-- One element of `self.buffer`.  The buffer holds one-element Python lists:
the initial `['------>']` (a list holding a string) and appended
`[recv_data]` entries (a list holding the tuple of unpacked integers). -/
inductive BufEntry where
  | mark (s : String)
  | payload (vals : List Int)
deriving DecidableEq, Repr

/-- The mutable attributes of a `WifiComm` instance (socket handle omitted;
`t1_receive` abstracted to the only question asked of it, membership in
`list`, plus counters of started threads). -/
structure ChanState where
  target_address : String
  port : Nat
  printing : Bool
  t1_receive_is_list : Bool
  t1_stop : Bool
  t2_stop : Bool
  buffer : List BufEntry
  format_string : Fmt
  warnings : List Warn
  activeReceiveLoops : Nat
  activeSendLoops : Nat
deriving DecidableEq, Repr

/-- `WifiComm.__init__(target_address, port, printing)`. -/
def initState (target_address : String) (port : Nat) (printing : Bool) : ChanState :=
  { target_address := target_address
    port := port
    printing := printing
    t1_receive_is_list := true
    t1_stop := false
    t2_stop := false
    buffer := [BufEntry.mark "------>"]
    format_string := Fmt.B
    warnings := []
    activeReceiveLoops := 0
    activeSendLoops := 0 }

/-- Outcome of one `recvfrom` call inside `__receive_thread`: either a
`socket.error` carrying its message (a timeout raises one whose message is
`timed out`), or a received datagram (the sender address only feeds the
print, so it is omitted). -/
inductive REvent where
  | sockErr (msg : String)
  | datagram (raw : List Nat)
deriving DecidableEq, Repr

/-- One iteration of the body of the `while not self.t1_stop` loop in
`__receive_thread`: a timeout is passed over; any other `socket.error` prints
a warning; a datagram is unpacked under `self.format_string`, a
`struct.error` printing a warning, success appending `[recv_data]` to the
buffer inside the mutex. -/
def stepReceive (st : ChanState) : REvent → ChanState
  | .sockErr m =>
    if m = "timed out" then st
    else { st with warnings := st.warnings ++ [Warn.recvSock m] }
  | .datagram raw =>
    match unpackData st.format_string raw with
    | none => { st with warnings := st.warnings ++ [Warn.recvUnpack] }
    | some vals => { st with buffer := st.buffer ++ [BufEntry.payload vals] }

/-- A run of the `__receive_thread` loop.  Each oracle entry gives the value
of `self.t1_stop` observed at the `while` test (the flag is mutated only by
code outside the class) and the transport outcome of that iteration.  Returns
the final state and the number of loop iterations executed. -/
def runReceiveLoop (st : ChanState) : List (Bool × REvent) → ChanState × Nat
  | [] => (st, 0)
  | (stop, e) :: rest =>
    if stop then (st, 0)
    else
      let r := runReceiveLoop (stepReceive st e) rest
      (r.1, r.2 + 1)

/-- `run_receive_thread`: the guard `isinstance(self.t1_receive, list)` holds
only before the first call (afterwards `t1_receive` is a `Thread`), in which
case a new receive thread is created and started. -/
def run_receive_thread (st : ChanState) : ChanState :=
  if st.t1_receive_is_list then
    { st with
      t1_receive_is_list := false
      activeReceiveLoops := st.activeReceiveLoops + 1 }
  else st

/-- The observable outcome of one `send_message` call: the datagram handed to
`sendto` with its destination, if any (`sendto` is attempted exactly when the
packed message is non-empty; `none` means no transport write), and the
warnings printed (by `__pack_tx_data` and by `send_message` itself). -/
structure SendOutcome where
  attempted : Option (List Nat × String × Nat)
  warnings : List Warn
deriving DecidableEq, Repr

/-- `send_message(send_data, send_data_format)`: packs the data, sends it to
`(self.target_address, self.port)` when the byte object is non-empty
(`transportOk = false` models `sendto` raising `socket.error`, which is
caught and reported), and otherwise prints the `message length is 0`
warning without writing to the transport. -/
def send_message (st : ChanState) (send_data : List Int) (send_data_format : Fmt)
    (transportOk : Bool) : SendOutcome :=
  let p := pack_tx_data send_data_format send_data
  if 0 < p.1.length then
    if transportOk then
      { attempted := some (p.1, st.target_address, st.port), warnings := p.2 }
    else
      { attempted := some (p.1, st.target_address, st.port)
        warnings := p.2 ++ [Warn.sendSock] }
  else
    { attempted := none, warnings := p.2 ++ [Warn.sendEmpty] }

/-- `run_send_cyclic_thread`: no guard whatsoever — a new thread running
`__send_cyclic_thread` is created and started on every call. -/
def run_send_cyclic_thread (st : ChanState) : ChanState :=
  { st with activeSendLoops := st.activeSendLoops + 1 }

/-- A run of the `while not self.t2_stop` loop of `__send_cyclic_thread`.
Each oracle entry gives the value of `self.t2_stop` observed at the `while`
test and whether the transport accepts that iteration's `sendto`.  Returns
the list of datagrams handed to the transport, in order. -/
def runSendCyclic (st : ChanState) (send_data : List Int) (send_data_format : Fmt) :
    List (Bool × Bool) → List (List Nat)
  | [] => []
  | (stop, ok) :: rest =>
    if stop then []
    else
      match (send_message st send_data send_data_format ok).attempted with
      | some w => w.1 :: runSendCyclic st send_data send_data_format rest
      | none => runSendCyclic st send_data send_data_format rest

/-- Folding a list of successfully received datagrams through the receive
step (each raw payload arriving as one `recvfrom` result). -/
def procDatagrams (st : ChanState) (raws : List (List Nat)) : ChanState :=
  raws.foldl (fun s r => stepReceive s (REvent.datagram r)) st

/-- A channel state whose `format_string` attribute has been reassigned to
the 16-bit format `H` (it is a plain attribute of the object), under which
any datagram of odd length fails to unpack. -/
def stH : ChanState :=
  { initState "192.168.0.2" 1025 true with format_string := Fmt.H }

/-! Helper lemmas. -/

/-- Under the default format `B`, packing a list of in-range values yields
exactly their bytes, in order. -/
theorem packB_fst (v : List Int) (h : ∀ x ∈ v, 0 ≤ x ∧ x ≤ 255) :
    (pack_tx_data Fmt.B v).1 = v.map Int.toNat := by
  induction v with
  | nil => rfl
  | cons a t ih =>
    have ha := h a (List.mem_cons_self a t)
    have ht : ∀ x ∈ t, 0 ≤ x ∧ x ≤ 255 := fun x hx => h x (List.mem_cons_of_mem a hx)
    simp [pack_tx_data, packOne, ha.1, ha.2, ih ht]

/-- `struct.unpack` under format `B` never fails and returns the bytes as
integers. -/
theorem unpackB (raw : List Nat) :
    unpackData Fmt.B raw = some (raw.map Int.ofNat) := by
  simp [unpackData, unpackVals, fmtSize]

/-- Casting the `toNat` images of a list of in-range integers back to `Int`
recovers the list. -/
theorem map_toNat_cast (v : List Int) (h : ∀ x ∈ v, 0 ≤ x ∧ x ≤ 255) :
    ((v.map Int.toNat).map Int.ofNat) = v := by
  induction v with
  | nil => rfl
  | cons a t ih =>
    have ha := h a (List.mem_cons_self a t)
    have ht : ∀ x ∈ t, 0 ≤ x ∧ x ≤ 255 := fun x hx => h x (List.mem_cons_of_mem a hx)
    rw [List.map_cons, List.map_cons, ih ht]
    have h1 := ha.1
    congr 1
    rw [Int.ofNat_eq_coe]
    omega

/-- The packed bytes are the concatenation of the per-value packings of
exactly the values that fit, in order. -/
theorem pack_tx_data_join (f : Fmt) (l : List Int) :
    (pack_tx_data f l).1 = (l.filterMap (packOne f)).flatten := by
  induction l with
  | nil => rfl
  | cons v rest ih =>
    cases hpack : packOne f v <;> simp [pack_tx_data, hpack, ih]

/-- One warning is printed per skipped value. -/
theorem pack_tx_data_warn_count (f : Fmt) (l : List Int) :
    (pack_tx_data f l).2.length = (l.filter fun v => (packOne f v).isNone).length := by
  induction l with
  | nil => rfl
  | cons v rest ih =>
    cases hpack : packOne f v <;>
      simp [pack_tx_data, hpack, List.filter_cons, ih]

/-! Claim theorems. -/

/-- Claim C1: for every list of integers whose elements all lie in `[0,255]`,
unpacking (as `__receive_thread` does) the bytes produced by
`__pack_tx_data` under the default 8-bit unsigned format `B` returns exactly
the original ordered sequence of values. -/
theorem C1_roundtrip_uint8 (v : List Int) (h : ∀ x ∈ v, 0 ≤ x ∧ x ≤ 255) :
    unpackData Fmt.B (pack_tx_data Fmt.B v).1 = some v := by
  rw [packB_fst v h, unpackB, map_toNat_cast v h]

/-- Claim C1, witness: the round trip at the concrete payload `[0, 17, 255]`. -/
theorem C1_roundtrip_uint8_witness :
    (∀ x ∈ [(0 : Int), 17, 255], 0 ≤ x ∧ x ≤ 255)
    ∧ unpackData Fmt.B (pack_tx_data Fmt.B [0, 17, 255]).1 = some [0, 17, 255] :=
  ⟨by decide, C1_roundtrip_uint8 [0, 17, 255] (by decide)⟩

/-- Claim C6: `__pack_tx_data` is total (a value that does not fit raises
`struct.error`, which is caught: the value is skipped and a warning printed),
the result is the concatenation of the packings of exactly the values that
fit, in their original order, with one warning per skipped value; in
particular packing `[300]` under the 8-bit unsigned format returns the empty
byte object. -/
theorem C6_pack_skips_unfit (f : Fmt) (l : List Int) :
    (pack_tx_data f l).1 = (l.filterMap (packOne f)).flatten
    ∧ (pack_tx_data f l).2.length = (l.filter fun v => (packOne f v).isNone).length
    ∧ (pack_tx_data Fmt.B [300]).1 = [] :=
  ⟨pack_tx_data_join f l, pack_tx_data_warn_count f l, by decide⟩

/-- Claim C7: `send_message` attempts a transport write exactly when the
packed message is non-empty, in which case precisely the packed bytes are
handed to `sendto` with destination `(self.target_address, self.port)`; an
empty packing is reported as the `message length is 0` warning with no write,
and a `socket.error` from `sendto` is caught and reported as a warning
(never re-raised to the caller). -/
theorem C7_send_message_cases (st : ChanState) (d : List Int) (f : Fmt) (ok : Bool) :
    (send_message st d f ok).attempted
      = (if (pack_tx_data f d).1.length = 0 then none
         else some ((pack_tx_data f d).1, st.target_address, st.port))
    ∧ (send_message st d f ok).warnings
      = (pack_tx_data f d).2
          ++ (if (pack_tx_data f d).1.length = 0 then [Warn.sendEmpty]
              else if ok then [] else [Warn.sendSock]) := by
  rcases Nat.eq_zero_or_pos (pack_tx_data f d).1.length with h | h
  · simp [send_message, h]
  · cases ok <;> simp [send_message, h, Nat.pos_iff_ne_zero.mp h]

end UdpComm

namespace UdpComm

/-- The receive loop executes exactly one iteration per oracle entry up to
the first observed `t1_stop = true`. -/
theorem runReceiveLoop_iters (evs : List (Bool × REvent)) :
    ∀ st : ChanState,
      (runReceiveLoop st evs).2 = (evs.takeWhile fun p => !p.1).length := by
  induction evs with
  | nil => intro st; rfl
  | cons pe rest ih =>
    intro st
    obtain ⟨stop, e⟩ := pe
    cases stop
    · simp [runReceiveLoop, ih (stepReceive st e)]
    · simp [runReceiveLoop]

/-- One receive iteration only ever appends to the buffer. -/
theorem stepReceive_buffer_extend (st : ChanState) (e : REvent) :
    ∃ l, (stepReceive st e).buffer = st.buffer ++ l := by
  cases e with
  | sockErr m =>
    by_cases hm : m = "timed out" <;> exact ⟨[], by simp [stepReceive, hm]⟩
  | datagram raw =>
    cases hu : unpackData st.format_string raw with
    | none => exact ⟨[], by simp [stepReceive, hu]⟩
    | some vals => exact ⟨[BufEntry.payload vals], by simp [stepReceive, hu]⟩

/-- A run of the receive loop only ever appends to the buffer. -/
theorem runReceiveLoop_buffer_extend (evs : List (Bool × REvent)) :
    ∀ st : ChanState, ∃ l, (runReceiveLoop st evs).1.buffer = st.buffer ++ l := by
  induction evs with
  | nil => intro st; exact ⟨[], by simp [runReceiveLoop]⟩
  | cons pe rest ih =>
    intro st
    obtain ⟨stop, e⟩ := pe
    cases stop
    · obtain ⟨l1, h1⟩ := stepReceive_buffer_extend st e
      obtain ⟨l2, h2⟩ := ih (stepReceive st e)
      exact ⟨l1 ++ l2, by simp [runReceiveLoop, h2, h1, List.append_assoc]⟩
    · exact ⟨[], by simp [runReceiveLoop]⟩

/-- Under the default format `B`, every datagram decodes and each one appends
exactly its payload entry; the format is also left unchanged. -/
theorem procDatagrams_B (raws : List (List Nat)) :
    ∀ st : ChanState, st.format_string = Fmt.B →
      (procDatagrams st raws).buffer
          = st.buffer ++ raws.map (fun r => BufEntry.payload (r.map Int.ofNat))
      ∧ (procDatagrams st raws).format_string = Fmt.B := by
  induction raws with
  | nil =>
    intro st hf
    exact ⟨by simp [procDatagrams], by simpa [procDatagrams] using hf⟩
  | cons r t ih =>
    intro st hf
    have hstep : stepReceive st (REvent.datagram r)
        = { st with buffer := st.buffer ++ [BufEntry.payload (r.map Int.ofNat)] } := by
      simp [stepReceive, hf, unpackB]
    have hrec : procDatagrams st (r :: t)
        = procDatagrams (stepReceive st (REvent.datagram r)) t := rfl
    have hf' : (stepReceive st (REvent.datagram r)).format_string = Fmt.B := by
      rw [hstep]; exact hf
    obtain ⟨hb, hfmt⟩ := ih (stepReceive st (REvent.datagram r)) hf'
    refine ⟨?_, by rw [hrec]; exact hfmt⟩
    rw [hrec, hb, hstep]
    simp [List.append_assoc]

/-- Claim C2, counterexample: from a freshly constructed channel, one
successfully decoded datagram leaves the buffer with length 2, not 1 (the
initial `['------>']` entry is already there). -/
theorem C2_counterexample_initial_entry :
    ¬ (procDatagrams (initState "192.168.0.2" 1025 true) [[5]]).buffer.length = 1 := by
  decide

/-- Claim C2 (amended): starting from a freshly constructed channel,
processing `N` successfully decoded receive events leaves the buffer with
length `N + 1`: the initial marker entry followed by each of the `N` decoded
payloads exactly once, in arrival order. -/
theorem C2_amended_buffer_contents (t : String) (p : Nat) (pr : Bool)
    (raws : List (List Nat)) :
    (procDatagrams (initState t p pr) raws).buffer
        = BufEntry.mark "------>"
            :: raws.map (fun r => BufEntry.payload (r.map Int.ofNat))
    ∧ (procDatagrams (initState t p pr) raws).buffer.length = raws.length + 1 := by
  obtain ⟨hb, -⟩ := procDatagrams_B raws (initState t p pr) rfl
  have hc : (procDatagrams (initState t p pr) raws).buffer
      = BufEntry.mark "------>"
          :: raws.map (fun r => BufEntry.payload (r.map Int.ofNat)) := by
    rw [hb]; simp [initState]
  refine ⟨hc, ?_⟩
  rw [hc]
  simp

/-- Claim C9: immediately after construction the buffer holds exactly the one
marker entry `['------>']`, so it has length 1, after `n` successful decodes
it has length `n + 1`, and no run of the receive loop ever leaves it
empty. -/
theorem C9_initial_buffer_marker (t : String) (p : Nat) (pr : Bool)
    (raws : List (List Nat)) (evs : List (Bool × REvent)) :
    (initState t p pr).buffer = [BufEntry.mark "------>"]
    ∧ (initState t p pr).buffer.length = 1
    ∧ (procDatagrams (initState t p pr) raws).buffer.length = raws.length + 1
    ∧ (runReceiveLoop (initState t p pr) evs).1.buffer ≠ [] := by
  refine ⟨rfl, rfl, ?_, ?_⟩
  · exact (C2_amended_buffer_contents t p pr raws).2
  · obtain ⟨l, hl⟩ := runReceiveLoop_buffer_extend evs (initState t p pr)
    rw [hl]
    simp [initState]

/-- Claim C3, counterexample: a datagram whose payload fails to unpack (here
a 1-byte datagram under the 16-bit format) leaves the buffer exactly as it
was — no decode-failure marker is recorded in the buffer. -/
theorem C3_counterexample_no_marker :
    unpackData stH.format_string [7] = none
    ∧ (stepReceive stH (REvent.datagram [7])).buffer = stH.buffer := by
  decide

/-- Claim C3 (amended): on a datagram whose payload fails to decode, the
receive loop prints a warning and continues to the next iteration without
crashing, but records nothing in the buffer (the buffer is unchanged; the
failure is dropped from the buffer, surfaced only as the warning). -/
theorem C3_amended_failure_reported_not_buffered (st : ChanState)
    (raw : List Nat) (rest : List (Bool × REvent))
    (h : unpackData st.format_string raw = none) :
    (stepReceive st (REvent.datagram raw)).buffer = st.buffer
    ∧ (stepReceive st (REvent.datagram raw)).warnings
        = st.warnings ++ [Warn.recvUnpack]
    ∧ (runReceiveLoop st ((false, REvent.datagram raw) :: rest)).2
        = (runReceiveLoop (stepReceive st (REvent.datagram raw)) rest).2 + 1 := by
  refine ⟨by simp [stepReceive, h], by simp [stepReceive, h], by simp [runReceiveLoop]⟩

/-- Claim C3 (amended), witness: the concrete failing datagram `[7]` under
the 16-bit format. -/
theorem C3_amended_failure_reported_not_buffered_witness :
    unpackData stH.format_string [7] = none
    ∧ ((stepReceive stH (REvent.datagram [7])).buffer = stH.buffer
        ∧ (stepReceive stH (REvent.datagram [7])).warnings
            = stH.warnings ++ [Warn.recvUnpack]
        ∧ (runReceiveLoop stH ((false, REvent.datagram [7]) :: [])).2
            = (runReceiveLoop (stepReceive stH (REvent.datagram [7])) []).2 + 1) :=
  ⟨by decide, C3_amended_failure_reported_not_buffered stH [7] [] (by decide)⟩

/-- Claim C4: `run_receive_thread` is idempotent (the `isinstance` guard
makes a second call a no-op), two calls on a fresh channel start exactly one
receive loop, and one receive iteration appends at most one buffer entry, so
a single inbound datagram enters the buffer at most once. -/
theorem C4_second_start_receive_noop :
    (∀ st : ChanState,
        run_receive_thread (run_receive_thread st) = run_receive_thread st)
    ∧ (∀ (t : String) (p : Nat) (pr : Bool),
        (run_receive_thread (run_receive_thread (initState t p pr))).activeReceiveLoops = 1)
    ∧ (∀ (st : ChanState) (e : REvent),
        (stepReceive st e).buffer.length ≤ st.buffer.length + 1) := by
  refine ⟨?_, ?_, ?_⟩
  · intro st
    by_cases h : st.t1_receive_is_list <;> simp [run_receive_thread, h]
  · intro t p pr
    simp [run_receive_thread, initState]
  · intro st e
    rcases e with m | raw
    · by_cases hm : m = "timed out" <;> simp [stepReceive, hm]
    · cases hu : unpackData st.format_string raw <;>
        simp [stepReceive, hu]

/-- Claim C5: `run_send_cyclic_thread` has no guard at all — called twice on
a fresh channel (whose `t2_stop` is still `False`, so the first loop is
active and each loop iteration transmits), it starts a second concurrent
cyclic send loop. -/
theorem C5_unguarded_second_cyclic_send :
    (run_send_cyclic_thread (run_send_cyclic_thread
        (initState "192.168.0.2" 1025 true))).activeSendLoops = 2
    ∧ (initState "192.168.0.2" 1025 true).t2_stop = false
    ∧ runSendCyclic (initState "192.168.0.2" 1025 true) [1] Fmt.B [(false, true)]
        = [[1]] := by
  decide

/-- Claim C8: the receive loop executes exactly one iteration per oracle
entry until the first observed `t1_stop = true` (no transport or decode
outcome ever terminates it — only the stop flag), a timeout leaves the whole
state unchanged, any other `socket.error` only appends a warning and the
loop continues, and a datagram whose payload fails to unpack appends the
decode-failure warning (a successful unpack appends none) — decode errors
are reported, never silently swallowed. -/
theorem C8_only_stop_terminates (st : ChanState) (evs : List (Bool × REvent))
    (m : String) :
    (runReceiveLoop st evs).2 = (evs.takeWhile fun p => !p.1).length
    ∧ stepReceive st (REvent.sockErr "timed out") = st
    ∧ stepReceive st (REvent.sockErr m)
        = (if m = "timed out" then st
           else { st with warnings := st.warnings ++ [Warn.recvSock m] })
    ∧ ∀ raw : List Nat,
        (stepReceive st (REvent.datagram raw)).warnings
          = st.warnings
              ++ (match unpackData st.format_string raw with
                  | none => [Warn.recvUnpack]
                  | some _ => []) := by
  refine ⟨runReceiveLoop_iters evs st, by simp [stepReceive], ?_, ?_⟩
  · by_cases hm : m = "timed out" <;> simp [stepReceive, hm]
  · intro raw
    cases hu : unpackData st.format_string raw <;> simp [stepReceive, hu]

/-- Claim C10: no method of the class ever writes a stop flag (so neither is
ever reset from `True` back to `False`), and the cyclic send loop spawned
while `t2_stop` is already observed `True` exits at its first `while` test
performing zero transport writes — a stopped cyclic send cannot be restarted
on the same instance. -/
theorem C10_stop_flags_never_reset :
    (∀ (st : ChanState) (e : REvent),
        (stepReceive st e).t1_stop = st.t1_stop
        ∧ (stepReceive st e).t2_stop = st.t2_stop)
    ∧ (∀ st : ChanState,
        (run_receive_thread st).t1_stop = st.t1_stop
        ∧ (run_receive_thread st).t2_stop = st.t2_stop)
    ∧ (∀ st : ChanState,
        (run_send_cyclic_thread st).t1_stop = st.t1_stop
        ∧ (run_send_cyclic_thread st).t2_stop = st.t2_stop)
    ∧ (∀ (st : ChanState) (d : List Int) (f : Fmt) (ok : Bool)
        (rest : List (Bool × Bool)),
        runSendCyclic st d f ((true, ok) :: rest) = []) := by
  refine ⟨?_, ?_, ?_, ?_⟩
  · intro st e
    rcases e with m | raw
    · by_cases hm : m = "timed out" <;> simp [stepReceive, hm]
    · cases hu : unpackData st.format_string raw <;> simp [stepReceive, hu]
  · intro st
    by_cases h : st.t1_receive_is_list <;> simp [run_receive_thread, h]
  · intro st
    simp [run_send_cyclic_thread]
  · intro st d f ok rest
    simp [runSendCyclic]

end UdpComm
